import Mathlib

/-!
# Verification of the octopussy in-memory transaction ledger

Shallow embedding of `src/memory_processor.rs`, `src/transaction.rs` and the
control flow of `src/csv.rs`.

Modelling choices:
- `rust_decimal::Decimal` amounts are modelled as exact rationals (`ℚ`);
- `ClientId` (`u16`) and `TransactionId` (`u32`) are opaque keys, modelled as
  `Nat` (no arithmetic is ever performed on them);
- the two `HashMap`s of `InMemoryTransactionDb` are modelled as functions into
  `Option`;
- every operation returns the `Result` together with the store state after the
  call, so that mutation-before-error (the `entry(..).or_default()` in
  `deposit`) is represented faithfully.
-/

abbrev ClientId := Nat
abbrev TransactionId := Nat
abbrev Amount := ℚ

/-- Mirror of `TransactionState` in `memory_processor.rs`: the signed amount of
the transaction (positive for deposits, negative for withdrawals) and whether
it is currently disputed. -/
structure TransactionState where
  amount : Amount
  disputed : Bool
deriving DecidableEq

/-- Mirror of `ClientState` in `memory_processor.rs`. -/
structure ClientState where
  available : Amount
  held : Amount
  frozen : Bool
deriving DecidableEq

/-- Mirror of `ClientState::new` / `ClientState::default`: all balances zero,
not frozen. -/
def ClientState.new : ClientState := ⟨0, 0, false⟩

/-- Mirror of `ClientState::total`: the sum of available and held amounts. -/
def ClientState.total (c : ClientState) : Amount := c.available + c.held

/-- Mirror of `InMemoryTransactionDb`: the per-client states and the
per-`(client, tx)` transaction history. -/
@[ext]
structure Db where
  clients : ClientId → Option ClientState
  history : ClientId × TransactionId → Option TransactionState

/-- Mirror of `InMemoryTransactionDb::new`: both maps empty. -/
def Db.new : Db := ⟨fun _ => none, fun _ => none⟩

/-- Mirror of `TransactionError` in `transaction.rs`. -/
inductive TransactionError where
  | ClientNotFound (client_id : ClientId)
  | InsufficientFunds (client_id : ClientId) (transaction_id : TransactionId)
      (available : Amount) (amount : Amount)
  | AccountFrozen (client_id : ClientId)
  | AlreadyDisputed (client_id : ClientId) (transaction_id : TransactionId)
  | NotDisputed (client_id : ClientId) (transaction_id : TransactionId)
  | TransactionNotFound (client_id : ClientId) (transaction_id : TransactionId)
  | DuplicateTransaction (client_id : ClientId) (transaction_id : TransactionId)
deriving DecidableEq

/-- Pointwise map update, modelling `HashMap::insert` (and the insertion done
by `entry(..).or_default()`). -/
def upd {α β : Type} [DecidableEq α] (f : α → Option β) (k : α) (v : Option β) :
    α → Option β :=
  fun k' => if k' = k then v else f k'

/-- Mirror of `InMemoryTransactionDb::ensure_transaction_uniqe` as a predicate:
the pre-flight duplicate check succeeds exactly when `(client, tx)` is not in
the history. -/
def transactionUniqe (db : Db) (transaction_id : TransactionId)
    (client_id : ClientId) : Bool :=
  (db.history (client_id, transaction_id)).isNone

/-- Mirror of `InMemoryTransactionDb::deposit`. The `entry(client_id).or_default()`
insertion is performed before the frozen check, exactly as in the source, so the
state returned on the `AccountFrozen` path carries that insertion. -/
def deposit (db : Db) (transaction_id : TransactionId) (client_id : ClientId)
    (amount : Amount) : Except TransactionError Unit × Db :=
  if ¬ transactionUniqe db transaction_id client_id then
    (Except.error (TransactionError.DuplicateTransaction client_id transaction_id), db)
  else
    -- `self.clients.entry(client_id).or_default()`
    let client := (db.clients client_id).getD ClientState.new
    let db1 : Db := ⟨upd db.clients client_id (some client), db.history⟩
    if client.frozen then
      (Except.error (TransactionError.AccountFrozen client_id), db1)
    else
      (Except.ok (),
        ⟨upd db1.clients client_id
            (some { client with available := client.available + amount }),
         upd db1.history (client_id, transaction_id)
            (some ⟨amount, false⟩)⟩)

/-- Mirror of `InMemoryTransactionDb::withdrawal`. -/
def withdrawal (db : Db) (transaction_id : TransactionId) (client_id : ClientId)
    (amount : Amount) : Except TransactionError Unit × Db :=
  if ¬ transactionUniqe db transaction_id client_id then
    (Except.error (TransactionError.DuplicateTransaction client_id transaction_id), db)
  else
    match db.clients client_id with
    | none => (Except.error (TransactionError.ClientNotFound client_id), db)
    | some client =>
      if client.frozen then
        (Except.error (TransactionError.AccountFrozen client_id), db)
      else if client.available < amount then
        (Except.error (TransactionError.InsufficientFunds client_id transaction_id
          client.available amount), db)
      else
        (Except.ok (),
          ⟨upd db.clients client_id
              (some { client with available := client.available - amount }),
           upd db.history (client_id, transaction_id)
              (some ⟨-amount, false⟩)⟩)

/-- Mirror of `InMemoryTransactionDb::dispute`. -/
def dispute (db : Db) (transaction_id : TransactionId) (client_id : ClientId) :
    Except TransactionError Unit × Db :=
  match db.clients client_id with
  | none => (Except.error (TransactionError.ClientNotFound client_id), db)
  | some client =>
    match db.history (client_id, transaction_id) with
    | none =>
      (Except.error (TransactionError.TransactionNotFound client_id transaction_id), db)
    | some t =>
      if t.disputed then
        (Except.error (TransactionError.AlreadyDisputed client_id transaction_id), db)
      else
        (Except.ok (),
          ⟨upd db.clients client_id
              (some { client with available := client.available - t.amount,
                                  held := client.held + t.amount }),
           upd db.history (client_id, transaction_id)
              (some { t with disputed := true })⟩)

/-- Mirror of `InMemoryTransactionDb::resolve`. -/
def resolve (db : Db) (transaction_id : TransactionId) (client_id : ClientId) :
    Except TransactionError Unit × Db :=
  match db.clients client_id with
  | none => (Except.error (TransactionError.ClientNotFound client_id), db)
  | some client =>
    match db.history (client_id, transaction_id) with
    | none =>
      (Except.error (TransactionError.TransactionNotFound client_id transaction_id), db)
    | some t =>
      if ¬ t.disputed then
        (Except.error (TransactionError.NotDisputed client_id transaction_id), db)
      else
        (Except.ok (),
          ⟨upd db.clients client_id
              (some { client with available := client.available + t.amount,
                                  held := client.held - t.amount }),
           upd db.history (client_id, transaction_id)
              (some { t with disputed := false })⟩)

/-- Mirror of `InMemoryTransactionDb::chargeback`. Note that the transaction's
`disputed` flag is not written: the history is unchanged. -/
def chargeback (db : Db) (transaction_id : TransactionId) (client_id : ClientId) :
    Except TransactionError Unit × Db :=
  match db.clients client_id with
  | none => (Except.error (TransactionError.ClientNotFound client_id), db)
  | some client =>
    match db.history (client_id, transaction_id) with
    | none =>
      (Except.error (TransactionError.TransactionNotFound client_id transaction_id), db)
    | some t =>
      if ¬ t.disputed then
        (Except.error (TransactionError.NotDisputed client_id transaction_id), db)
      else
        (Except.ok (),
          ⟨upd db.clients client_id
              (some { client with held := client.held - t.amount, frozen := true }),
           db.history⟩)

/-- Mirror of `TransactionEvent` in `transaction.rs`. -/
inductive TransactionEvent where
  | Deposit (tx : TransactionId) (client : ClientId) (amount : Amount)
  | Withdrawal (tx : TransactionId) (client : ClientId) (amount : Amount)
  | Dispute (tx : TransactionId) (client : ClientId)
  | Resolve (tx : TransactionId) (client : ClientId)
  | Chargeback (tx : TransactionId) (client : ClientId)

/-- Mirror of `TransactionProcessor::process_transaction_event`: the event
dispatcher. -/
def process_transaction_event (db : Db) (e : TransactionEvent) :
    Except TransactionError Unit × Db :=
  match e with
  | TransactionEvent.Deposit tx client amount => deposit db tx client amount
  | TransactionEvent.Withdrawal tx client amount => withdrawal db tx client amount
  | TransactionEvent.Dispute tx client => dispute db tx client
  | TransactionEvent.Resolve tx client => resolve db tx client
  | TransactionEvent.Chargeback tx client => chargeback db tx client

/-- Mirror of `TransactionRow` in `csv.rs`: a decoded input record, with the
amount column optional. -/
structure TransactionRow where
  transaction_type : String
  client : ClientId
  tx : TransactionId
  amount : Option Amount

/-- Mirror of `CsvDecodeError` in `csv.rs`. -/
inductive CsvDecodeError where
  | MissingAmount
  | UnknownType (t : String)
deriving DecidableEq

/-- Mirror of `TryFrom<TransactionRow> for TransactionEvent` in `csv.rs`. -/
def TransactionEvent.try_from (row : TransactionRow) :
    Except CsvDecodeError TransactionEvent :=
  match row.transaction_type with
  | "deposit" =>
    match row.amount with
    | none => Except.error CsvDecodeError.MissingAmount
    | some amount => Except.ok (TransactionEvent.Deposit row.tx row.client amount)
  | "withdrawal" =>
    match row.amount with
    | none => Except.error CsvDecodeError.MissingAmount
    | some amount => Except.ok (TransactionEvent.Withdrawal row.tx row.client amount)
  | "dispute" => Except.ok (TransactionEvent.Dispute row.tx row.client)
  | "resolve" => Except.ok (TransactionEvent.Resolve row.tx row.client)
  | "chargeback" => Except.ok (TransactionEvent.Chargeback row.tx row.client)
  | t => Except.error (CsvDecodeError.UnknownType t)

/-- Mirror of the event loop of `csv_processor` in `csv.rs`: each row is
decoded (`try_into`, whose failure propagates with `?` and aborts the run),
then pushed through the dispatcher; a ledger error is only logged and the loop
continues with the next row. On normal exit the final store — from which the
client snapshot rows are then serialized — is returned. -/
def csv_processor (db : Db) : List TransactionRow → Except CsvDecodeError Db
  | [] => Except.ok db
  | row :: rest =>
    match TransactionEvent.try_from row with
    | Except.error e => Except.error e
    | Except.ok ev => csv_processor (process_transaction_event db ev).2 rest

/-! ## Helper lemmas -/

theorem upd_apply_same {α β : Type} [DecidableEq α] (f : α → Option β) (k : α)
    (v : Option β) : upd f k v k = v := by
  simp [upd]

theorem upd_apply_ne {α β : Type} [DecidableEq α] (f : α → Option β) (k k' : α)
    (v : Option β) (h : k' ≠ k) : upd f k v k' = f k' := by
  simp [upd, h]

theorem upd_self {α β : Type} [DecidableEq α] (f : α → Option β) (k : α) :
    upd f k (f k) = f := by
  funext k'
  by_cases h : k' = k <;> simp [upd, h]

theorem upd_upd {α β : Type} [DecidableEq α] (f : α → Option β) (k : α)
    (v w : Option β) : upd (upd f k v) k w = upd f k w := by
  funext k'
  by_cases h : k' = k <;> simp [upd, h]

theorem upd_lookup_ne {α β : Type} [DecidableEq α] {f : α → Option β} {k k' : α}
    {v w : Option β} (h : k' ≠ k) (hv : f k' = w) : upd f k v k' = w := by
  rw [upd_apply_ne _ _ _ _ h]
  exact hv

theorem deposit_dup (db : Db) (tx : TransactionId) (client : ClientId)
    (amount : Amount) (t : TransactionState) (ht : db.history (client, tx) = some t) :
    deposit db tx client amount =
      (Except.error (TransactionError.DuplicateTransaction client tx), db) := by
  simp [deposit, transactionUniqe, ht]

theorem deposit_frozen (db : Db) (tx : TransactionId) (client : ClientId)
    (amount : Amount) (cl : ClientState) (ht : db.history (client, tx) = none)
    (hc : db.clients client = some cl) (hf : cl.frozen = true) :
    deposit db tx client amount =
      (Except.error (TransactionError.AccountFrozen client), db) := by
  simp only [deposit, transactionUniqe, ht, hc, Option.isNone_none, not_true_eq_false,
    if_false, Option.getD_some, hf, if_true]
  rw [show (some cl) = db.clients client from hc.symm, upd_self]

theorem deposit_ok_eq (db : Db) (tx : TransactionId) (client : ClientId)
    (amount : Amount) (ht : db.history (client, tx) = none)
    (hf : ((db.clients client).getD ClientState.new).frozen = false) :
    deposit db tx client amount =
      (Except.ok (),
        ⟨upd db.clients client
            (some { (db.clients client).getD ClientState.new with
                    available := ((db.clients client).getD ClientState.new).available
                      + amount }),
         upd db.history (client, tx) (some ⟨amount, false⟩)⟩) := by
  simp [deposit, transactionUniqe, ht, hf, upd_upd]

theorem withdrawal_dup (db : Db) (tx : TransactionId) (client : ClientId)
    (amount : Amount) (t : TransactionState) (ht : db.history (client, tx) = some t) :
    withdrawal db tx client amount =
      (Except.error (TransactionError.DuplicateTransaction client tx), db) := by
  simp [withdrawal, transactionUniqe, ht]

theorem withdrawal_noclient (db : Db) (tx : TransactionId) (client : ClientId)
    (amount : Amount) (ht : db.history (client, tx) = none)
    (hc : db.clients client = none) :
    withdrawal db tx client amount =
      (Except.error (TransactionError.ClientNotFound client), db) := by
  simp [withdrawal, transactionUniqe, ht, hc]

theorem withdrawal_frozen (db : Db) (tx : TransactionId) (client : ClientId)
    (amount : Amount) (cl : ClientState) (ht : db.history (client, tx) = none)
    (hc : db.clients client = some cl) (hf : cl.frozen = true) :
    withdrawal db tx client amount =
      (Except.error (TransactionError.AccountFrozen client), db) := by
  simp [withdrawal, transactionUniqe, ht, hc, hf]

theorem withdrawal_insufficient (db : Db) (tx : TransactionId) (client : ClientId)
    (amount : Amount) (cl : ClientState) (ht : db.history (client, tx) = none)
    (hc : db.clients client = some cl) (hf : cl.frozen = false)
    (hlt : cl.available < amount) :
    withdrawal db tx client amount =
      (Except.error (TransactionError.InsufficientFunds client tx cl.available amount),
        db) := by
  simp [withdrawal, transactionUniqe, ht, hc, hf, hlt]

theorem withdrawal_ok_eq (db : Db) (tx : TransactionId) (client : ClientId)
    (amount : Amount) (cl : ClientState) (ht : db.history (client, tx) = none)
    (hc : db.clients client = some cl) (hf : cl.frozen = false)
    (hge : ¬ cl.available < amount) :
    withdrawal db tx client amount =
      (Except.ok (),
        ⟨upd db.clients client (some { cl with available := cl.available - amount }),
         upd db.history (client, tx) (some ⟨-amount, false⟩)⟩) := by
  simp [withdrawal, transactionUniqe, ht, hc, hf, hge]

theorem dispute_noclient (db : Db) (tx : TransactionId) (client : ClientId)
    (hc : db.clients client = none) :
    dispute db tx client =
      (Except.error (TransactionError.ClientNotFound client), db) := by
  simp [dispute, hc]

theorem dispute_notx (db : Db) (tx : TransactionId) (client : ClientId)
    (cl : ClientState) (hc : db.clients client = some cl)
    (ht : db.history (client, tx) = none) :
    dispute db tx client =
      (Except.error (TransactionError.TransactionNotFound client tx), db) := by
  simp [dispute, hc, ht]

theorem dispute_already (db : Db) (tx : TransactionId) (client : ClientId)
    (cl : ClientState) (t : TransactionState) (hc : db.clients client = some cl)
    (ht : db.history (client, tx) = some t) (hd : t.disputed = true) :
    dispute db tx client =
      (Except.error (TransactionError.AlreadyDisputed client tx), db) := by
  simp [dispute, hc, ht, hd]

theorem dispute_ok_eq (db : Db) (tx : TransactionId) (client : ClientId)
    (cl : ClientState) (t : TransactionState) (hc : db.clients client = some cl)
    (ht : db.history (client, tx) = some t) (hd : t.disputed = false) :
    dispute db tx client =
      (Except.ok (),
        ⟨upd db.clients client
            (some ⟨cl.available - t.amount, cl.held + t.amount, cl.frozen⟩),
         upd db.history (client, tx) (some ⟨t.amount, true⟩)⟩) := by
  simp [dispute, hc, ht, hd]

theorem resolve_noclient (db : Db) (tx : TransactionId) (client : ClientId)
    (hc : db.clients client = none) :
    resolve db tx client =
      (Except.error (TransactionError.ClientNotFound client), db) := by
  simp [resolve, hc]

theorem resolve_notx (db : Db) (tx : TransactionId) (client : ClientId)
    (cl : ClientState) (hc : db.clients client = some cl)
    (ht : db.history (client, tx) = none) :
    resolve db tx client =
      (Except.error (TransactionError.TransactionNotFound client tx), db) := by
  simp [resolve, hc, ht]

theorem resolve_undisputed (db : Db) (tx : TransactionId) (client : ClientId)
    (cl : ClientState) (t : TransactionState) (hc : db.clients client = some cl)
    (ht : db.history (client, tx) = some t) (hd : t.disputed = false) :
    resolve db tx client =
      (Except.error (TransactionError.NotDisputed client tx), db) := by
  simp [resolve, hc, ht, hd]

theorem resolve_ok_eq (db : Db) (tx : TransactionId) (client : ClientId)
    (cl : ClientState) (t : TransactionState) (hc : db.clients client = some cl)
    (ht : db.history (client, tx) = some t) (hd : t.disputed = true) :
    resolve db tx client =
      (Except.ok (),
        ⟨upd db.clients client
            (some ⟨cl.available + t.amount, cl.held - t.amount, cl.frozen⟩),
         upd db.history (client, tx) (some ⟨t.amount, false⟩)⟩) := by
  simp [resolve, hc, ht, hd]

theorem chargeback_noclient (db : Db) (tx : TransactionId) (client : ClientId)
    (hc : db.clients client = none) :
    chargeback db tx client =
      (Except.error (TransactionError.ClientNotFound client), db) := by
  simp [chargeback, hc]

theorem chargeback_notx (db : Db) (tx : TransactionId) (client : ClientId)
    (cl : ClientState) (hc : db.clients client = some cl)
    (ht : db.history (client, tx) = none) :
    chargeback db tx client =
      (Except.error (TransactionError.TransactionNotFound client tx), db) := by
  simp [chargeback, hc, ht]

theorem chargeback_undisputed (db : Db) (tx : TransactionId) (client : ClientId)
    (cl : ClientState) (t : TransactionState) (hc : db.clients client = some cl)
    (ht : db.history (client, tx) = some t) (hd : t.disputed = false) :
    chargeback db tx client =
      (Except.error (TransactionError.NotDisputed client tx), db) := by
  simp [chargeback, hc, ht, hd]

theorem chargeback_ok_eq (db : Db) (tx : TransactionId) (client : ClientId)
    (cl : ClientState) (t : TransactionState) (hc : db.clients client = some cl)
    (ht : db.history (client, tx) = some t) (hd : t.disputed = true) :
    chargeback db tx client =
      (Except.ok (),
        ⟨upd db.clients client (some ⟨cl.available, cl.held - t.amount, true⟩),
         db.history⟩) := by
  simp [chargeback, hc, ht, hd]

/-- Total balance of a client as exposed by `clients_iter` (the snapshot):
`available + held`, or `none` when the client does not exist. -/
def totalOf (db : Db) (c : ClientId) : Option Amount :=
  (db.clients c).map ClientState.total

/-- Concrete store after `deposit(tx=1, client=1, amount=10)` from the empty
store. -/
def dbDep : Db := (deposit Db.new 1 1 10).2

/-- Concrete store after additionally disputing transaction `(1, 1)`. -/
def dbDisp : Db := (dispute dbDep 1 1).2

/-- Concrete store after additionally charging back transaction `(1, 1)`:
client 1 is frozen, and the history entry for `(1, 1)` still has
`disputed = true`. -/
def dbCb : Db := (chargeback dbDisp 1 1).2

theorem dbDep_clients : dbDep.clients 1 = some ⟨10, 0, false⟩ := by
  show ((deposit Db.new 1 1 10).2).clients 1 = some ⟨10, 0, false⟩
  rw [deposit_ok_eq Db.new 1 1 10 rfl rfl]
  simp [upd, Db.new, ClientState.new]

theorem dbDep_history : dbDep.history (1, 1) = some ⟨10, false⟩ := by
  show ((deposit Db.new 1 1 10).2).history (1, 1) = some ⟨10, false⟩
  rw [deposit_ok_eq Db.new 1 1 10 rfl rfl]
  simp [upd]

theorem dbDisp_clients : dbDisp.clients 1 = some ⟨0, 10, false⟩ := by
  show ((dispute dbDep 1 1).2).clients 1 = some ⟨0, 10, false⟩
  rw [dispute_ok_eq dbDep 1 1 ⟨10, 0, false⟩ ⟨10, false⟩ dbDep_clients
    dbDep_history rfl]
  simp [upd]

theorem dbDisp_history : dbDisp.history (1, 1) = some ⟨10, true⟩ := by
  show ((dispute dbDep 1 1).2).history (1, 1) = some ⟨10, true⟩
  rw [dispute_ok_eq dbDep 1 1 ⟨10, 0, false⟩ ⟨10, false⟩ dbDep_clients
    dbDep_history rfl]
  simp [upd]

theorem dbCb_clients : dbCb.clients 1 = some ⟨0, 0, true⟩ := by
  show ((chargeback dbDisp 1 1).2).clients 1 = some ⟨0, 0, true⟩
  rw [chargeback_ok_eq dbDisp 1 1 ⟨0, 10, false⟩ ⟨10, true⟩ dbDisp_clients
    dbDisp_history rfl]
  simp [upd]

theorem dbCb_history : dbCb.history (1, 1) = some ⟨10, true⟩ := by
  show ((chargeback dbDisp 1 1).2).history (1, 1) = some ⟨10, true⟩
  rw [chargeback_ok_eq dbDisp 1 1 ⟨0, 10, false⟩ ⟨10, true⟩ dbDisp_clients
    dbDisp_history rfl]
  exact dbDisp_history

/-! ## Claim theorems -/

/-- Claim C1: for every operation (deposit, withdrawal, dispute, resolve,
chargeback) and every store state, if the operation returns an error then the
store state after the call (client balances, frozen flags, and transaction
history) is exactly the state before the call. -/
theorem process_event_error_preserves_state (db : Db) (e : TransactionEvent)
    (err : TransactionError)
    (h : (process_transaction_event db e).1 = Except.error err) :
    (process_transaction_event db e).2 = db := by
  cases e with
  | Deposit tx client amount =>
    simp only [process_transaction_event] at h ⊢
    cases hht : db.history (client, tx) with
    | some t => rw [deposit_dup db tx client amount t hht]
    | none =>
      cases hcc : db.clients client with
      | none =>
        rw [deposit_ok_eq db tx client amount hht (by rw [hcc]; rfl)] at h
        exact absurd h (by simp)
      | some cl =>
        cases hf : cl.frozen with
        | true => rw [deposit_frozen db tx client amount cl hht hcc hf]
        | false =>
          rw [deposit_ok_eq db tx client amount hht (by rw [hcc]; simpa using hf)] at h
          exact absurd h (by simp)
  | Withdrawal tx client amount =>
    simp only [process_transaction_event] at h ⊢
    cases hht : db.history (client, tx) with
    | some t => rw [withdrawal_dup db tx client amount t hht]
    | none =>
      cases hcc : db.clients client with
      | none => rw [withdrawal_noclient db tx client amount hht hcc]
      | some cl =>
        cases hf : cl.frozen with
        | true => rw [withdrawal_frozen db tx client amount cl hht hcc hf]
        | false =>
          by_cases hlt : cl.available < amount
          · rw [withdrawal_insufficient db tx client amount cl hht hcc hf hlt]
          · rw [withdrawal_ok_eq db tx client amount cl hht hcc hf hlt] at h
            exact absurd h (by simp)
  | Dispute tx client =>
    simp only [process_transaction_event] at h ⊢
    cases hcc : db.clients client with
    | none => rw [dispute_noclient db tx client hcc]
    | some cl =>
      cases hht : db.history (client, tx) with
      | none => rw [dispute_notx db tx client cl hcc hht]
      | some t =>
        cases hd : t.disputed with
        | true => rw [dispute_already db tx client cl t hcc hht hd]
        | false =>
          rw [dispute_ok_eq db tx client cl t hcc hht hd] at h
          exact absurd h (by simp)
  | Resolve tx client =>
    simp only [process_transaction_event] at h ⊢
    cases hcc : db.clients client with
    | none => rw [resolve_noclient db tx client hcc]
    | some cl =>
      cases hht : db.history (client, tx) with
      | none => rw [resolve_notx db tx client cl hcc hht]
      | some t =>
        cases hd : t.disputed with
        | false => rw [resolve_undisputed db tx client cl t hcc hht hd]
        | true =>
          rw [resolve_ok_eq db tx client cl t hcc hht hd] at h
          exact absurd h (by simp)
  | Chargeback tx client =>
    simp only [process_transaction_event] at h ⊢
    cases hcc : db.clients client with
    | none => rw [chargeback_noclient db tx client hcc]
    | some cl =>
      cases hht : db.history (client, tx) with
      | none => rw [chargeback_notx db tx client cl hcc hht]
      | some t =>
        cases hd : t.disputed with
        | false => rw [chargeback_undisputed db tx client cl t hcc hht hd]
        | true =>
          rw [chargeback_ok_eq db tx client cl t hcc hht hd] at h
          exact absurd h (by simp)

/-- Witness for claim C1: a withdrawal on the empty store fails and leaves the
store exactly as it was. -/
theorem process_event_error_preserves_state_wit :
    (process_transaction_event Db.new (TransactionEvent.Withdrawal 1 1 5)).2 =
      Db.new :=
  process_event_error_preserves_state Db.new (TransactionEvent.Withdrawal 1 1 5)
    (TransactionError.ClientNotFound 1) (by rfl)

/-- Claim C7: every successful dispute or resolve leaves every client's total
(`available + held`) unchanged: the two operations only move the transaction's
signed amount between `available` and `held`. -/
theorem dispute_resolve_preserve_total (db : Db) (tx : TransactionId)
    (client c : ClientId) :
    ((dispute db tx client).1 = Except.ok () →
      totalOf (dispute db tx client).2 c = totalOf db c) ∧
    ((resolve db tx client).1 = Except.ok () →
      totalOf (resolve db tx client).2 c = totalOf db c) := by
  constructor
  · intro h
    cases hcc : db.clients client with
    | none => rw [dispute_noclient db tx client hcc] at h; exact absurd h (by simp)
    | some cl =>
      cases hht : db.history (client, tx) with
      | none => rw [dispute_notx db tx client cl hcc hht] at h; exact absurd h (by simp)
      | some t =>
        cases hd : t.disputed with
        | true =>
          rw [dispute_already db tx client cl t hcc hht hd] at h
          exact absurd h (by simp)
        | false =>
          rw [dispute_ok_eq db tx client cl t hcc hht hd]
          by_cases hec : c = client
          · subst hec
            simp only [totalOf, upd_apply_same, hcc, Option.map_some',
              ClientState.total, Option.some.injEq]
            ring
          · simp only [totalOf, upd_apply_ne db.clients client c _ hec]
  · intro h
    cases hcc : db.clients client with
    | none => rw [resolve_noclient db tx client hcc] at h; exact absurd h (by simp)
    | some cl =>
      cases hht : db.history (client, tx) with
      | none => rw [resolve_notx db tx client cl hcc hht] at h; exact absurd h (by simp)
      | some t =>
        cases hd : t.disputed with
        | false =>
          rw [resolve_undisputed db tx client cl t hcc hht hd] at h
          exact absurd h (by simp)
        | true =>
          rw [resolve_ok_eq db tx client cl t hcc hht hd]
          by_cases hec : c = client
          · subst hec
            simp only [totalOf, upd_apply_same, hcc, Option.map_some',
              ClientState.total, Option.some.injEq]
            ring
          · simp only [totalOf, upd_apply_ne db.clients client c _ hec]

/-- Witness for claim C7: disputing the deposit in the concrete store `dbDep`
succeeds and leaves client 1's total unchanged. -/
theorem dispute_resolve_preserve_total_wit :
    totalOf (dispute dbDep 1 1).2 1 = totalOf dbDep 1 :=
  (dispute_resolve_preserve_total dbDep 1 1 1).1 (by rfl)

/-- Claim C4: for every recorded, not-currently-disputed transaction
`(client, tx)` of an existing client, `dispute` followed by `resolve` both
succeed, the client's available and held balances return exactly to their
pre-dispute values (frozen flag untouched), and the transaction's disputed
flag ends false with its signed amount intact. -/
theorem dispute_resolve_roundtrip (db : Db) (tx : TransactionId)
    (client : ClientId) (cl : ClientState) (t : TransactionState)
    (hc : db.clients client = some cl) (ht : db.history (client, tx) = some t)
    (hd : t.disputed = false) :
    (dispute db tx client).1 = Except.ok () ∧
    (resolve (dispute db tx client).2 tx client).1 = Except.ok () ∧
    ((resolve (dispute db tx client).2 tx client).2).clients client =
      some ⟨cl.available, cl.held, cl.frozen⟩ ∧
    ((resolve (dispute db tx client).2 tx client).2).history (client, tx) =
      some ⟨t.amount, false⟩ := by
  rw [dispute_ok_eq db tx client cl t hc ht hd]
  rw [resolve_ok_eq
    (⟨upd db.clients client
        (some ⟨cl.available - t.amount, cl.held + t.amount, cl.frozen⟩),
      upd db.history (client, tx) (some ⟨t.amount, true⟩)⟩ : Db)
    tx client ⟨cl.available - t.amount, cl.held + t.amount, cl.frozen⟩
    ⟨t.amount, true⟩ (upd_apply_same _ _ _) (upd_apply_same _ _ _) rfl]
  refine ⟨rfl, rfl, ?_, ?_⟩
  · simp only [upd_apply_same, Option.some.injEq, ClientState.mk.injEq]
    refine ⟨by ring, by ring, trivial⟩
  · simp only [upd_apply_same]

/-- Witness for claim C4: the dispute/resolve round trip on the concrete store
`dbDep` succeeds. -/
theorem dispute_resolve_roundtrip_wit :
    (resolve (dispute dbDep 1 1).2 1 1).1 = Except.ok () :=
  (dispute_resolve_roundtrip dbDep 1 1 ⟨10, 0, false⟩ ⟨10, false⟩ dbDep_clients
    dbDep_history rfl).2.1

/-- Claim C5: for every currently disputed transaction `(client, tx)` of an
existing client, chargeback succeeds, freezes the account, removes the
transaction's signed amount from `held` while leaving `available` unchanged,
and the total decreases by exactly that amount. -/
theorem chargeback_effects (db : Db) (tx : TransactionId) (client : ClientId)
    (cl : ClientState) (t : TransactionState) (hc : db.clients client = some cl)
    (ht : db.history (client, tx) = some t) (hd : t.disputed = true) :
    (chargeback db tx client).1 = Except.ok () ∧
    ((chargeback db tx client).2).clients client =
      some ⟨cl.available, cl.held - t.amount, true⟩ ∧
    totalOf (chargeback db tx client).2 client = some (cl.total - t.amount) := by
  rw [chargeback_ok_eq db tx client cl t hc ht hd]
  refine ⟨rfl, ?_, ?_⟩
  · simp only [upd_apply_same]
  · simp only [totalOf, upd_apply_same, Option.map_some', ClientState.total,
      Option.some.injEq]
    ring

/-- Witness for claim C5: charging back the disputed deposit in the concrete
store `dbDisp` succeeds. -/
theorem chargeback_effects_wit :
    (chargeback dbDisp 1 1).1 = Except.ok () :=
  (chargeback_effects dbDisp 1 1 ⟨0, 10, false⟩ ⟨10, true⟩ dbDisp_clients
    dbDisp_history rfl).1

theorem dbDep_history_fresh : dbDep.history (1, 2) = none := by
  show ((deposit Db.new 1 1 10).2).history (1, 2) = none
  rw [deposit_ok_eq Db.new 1 1 10 rfl rfl]
  simp [upd, Db.new]

/-- Claim C6: `withdrawal` fails with `InsufficientFunds` — carrying the exact
requested amount and the current available balance — if and only if it passes
the duplicate, client-existence and frozen checks and `available < amount`;
in particular a withdrawal of exactly the available balance succeeds, records
`signed_amount = -amount` and decrements `available` by `amount`. -/
theorem withdrawal_insufficient_funds_spec (db : Db) (tx : TransactionId)
    (client : ClientId) (amount : Amount) :
    (∀ avail, (withdrawal db tx client amount).1 =
        Except.error (TransactionError.InsufficientFunds client tx avail amount) ↔
      (db.history (client, tx) = none ∧
        ∃ cl, db.clients client = some cl ∧ cl.frozen = false ∧
          avail = cl.available ∧ cl.available < amount)) ∧
    (∀ cl, db.history (client, tx) = none → db.clients client = some cl →
      cl.frozen = false → amount ≤ cl.available →
      (withdrawal db tx client amount).1 = Except.ok () ∧
      ((withdrawal db tx client amount).2).history (client, tx) =
        some ⟨-amount, false⟩ ∧
      ((withdrawal db tx client amount).2).clients client =
        some ⟨cl.available - amount, cl.held, cl.frozen⟩) := by
  cases hht : db.history (client, tx) with
  | some t =>
    rw [withdrawal_dup db tx client amount t hht]
    exact ⟨fun avail => ⟨fun h => absurd h (by simp), fun h => absurd h.1 (by simp)⟩,
      fun cl h1 => absurd h1 (by simp)⟩
  | none =>
    cases hcc : db.clients client with
    | none =>
      rw [withdrawal_noclient db tx client amount hht hcc]
      refine ⟨fun avail => ⟨fun h => absurd h (by simp), ?_⟩, ?_⟩
      · rintro ⟨-, cl', hcl', -⟩
        exact absurd hcl' (by simp)
      · intro cl' _ hcl'
        exact absurd hcl' (by simp)
    | some cl =>
      cases hf : cl.frozen with
      | true =>
        rw [withdrawal_frozen db tx client amount cl hht hcc hf]
        constructor
        · intro avail
          constructor
          · intro h; exact absurd h (by simp)
          · rintro ⟨-, cl', hcl', hfr', -, -⟩
            injection hcl' with h'
            subst h'
            rw [hf] at hfr'
            exact absurd hfr' (by simp)
        · intro cl' _ hcl' hfr'
          injection hcl' with h'
          subst h'
          rw [hf] at hfr'
          exact absurd hfr' (by simp)
      | false =>
        by_cases hlt : cl.available < amount
        · rw [withdrawal_insufficient db tx client amount cl hht hcc hf hlt]
          constructor
          · intro avail
            constructor
            · intro h
              simp only [Except.error.injEq,
                TransactionError.InsufficientFunds.injEq] at h
              exact ⟨rfl, cl, rfl, hf, h.2.2.1.symm, hlt⟩
            · rintro ⟨-, cl', hcl', -, havail, -⟩
              injection hcl' with h'
              subst h'
              rw [havail]
          · intro cl' _ hcl' _ hge
            injection hcl' with h'
            subst h'
            exact absurd hlt (not_lt.mpr hge)
        · rw [withdrawal_ok_eq db tx client amount cl hht hcc hf hlt]
          constructor
          · intro avail
            constructor
            · intro h; exact absurd h (by simp)
            · rintro ⟨-, cl', hcl', -, -, hlt'⟩
              injection hcl' with h'
              subst h'
              exact absurd hlt' hlt
          · intro cl' _ hcl' _ _
            injection hcl' with h'
            subst h'
            exact ⟨rfl, upd_apply_same _ _ _, by simp [upd_apply_same]⟩

/-- Witness for claim C6: on the concrete store `dbDep` (client 1 has 10
available), withdrawing 11 fails with `InsufficientFunds 1 2 10 11`, and
withdrawing exactly 10 succeeds. -/
theorem withdrawal_insufficient_funds_spec_wit :
    (withdrawal dbDep 2 1 11).1 =
      Except.error (TransactionError.InsufficientFunds 1 2 10 11) ∧
    (withdrawal dbDep 2 1 10).1 = Except.ok () :=
  ⟨((withdrawal_insufficient_funds_spec dbDep 2 1 11).1 10).mpr
      ⟨dbDep_history_fresh, ⟨10, 0, false⟩, dbDep_clients, rfl, rfl, by norm_num⟩,
   ((withdrawal_insufficient_funds_spec dbDep 2 1 10).2 ⟨10, 0, false⟩
      dbDep_history_fresh dbDep_clients rfl (by norm_num)).1⟩

/-- Claim C8: accounts are created lazily by deposits only. A withdrawal for a
client that never deposited fails with `ClientNotFound` and leaves the store
unchanged (no account is created), and a deposit for such a client starts from
`available = 0`. -/
theorem withdrawal_no_lazy_creation (db : Db) (tx tx2 : TransactionId)
    (client : ClientId) (amount amount2 : Amount)
    (hc : db.clients client = none) (ht : db.history (client, tx) = none)
    (ht2 : db.history (client, tx2) = none) :
    (withdrawal db tx client amount).1 =
      Except.error (TransactionError.ClientNotFound client) ∧
    (withdrawal db tx client amount).2 = db ∧
    ((withdrawal db tx client amount).2).clients client = none ∧
    (deposit db tx2 client amount2).1 = Except.ok () ∧
    ((deposit db tx2 client amount2).2).clients client =
      some ⟨amount2, 0, false⟩ := by
  rw [withdrawal_noclient db tx client amount ht hc,
    deposit_ok_eq db tx2 client amount2 ht2 (by rw [hc]; rfl)]
  refine ⟨rfl, rfl, hc, rfl, ?_⟩
  simp [upd_apply_same, hc, ClientState.new]

/-- Witness for claim C8: a withdrawal for the unknown client 7 on the empty
store fails with `ClientNotFound` and creates no account, and a later deposit
for client 7 starts from zero. -/
theorem withdrawal_no_lazy_creation_wit :
    (withdrawal Db.new 9 7 3).1 =
      Except.error (TransactionError.ClientNotFound 7) ∧
    ((withdrawal Db.new 9 7 3).2).clients 7 = none ∧
    ((deposit Db.new 1 7 4).2).clients 7 = some ⟨4, 0, false⟩ :=
  ⟨(withdrawal_no_lazy_creation Db.new 9 1 7 3 4 rfl rfl rfl).1,
   (withdrawal_no_lazy_creation Db.new 9 1 7 3 4 rfl rfl rfl).2.2.1,
   (withdrawal_no_lazy_creation Db.new 9 1 7 3 4 rfl rfl rfl).2.2.2.2⟩

/-- Claim C10: `deposit` performs no sign validation on its amount: for every
amount, including a negative one, a deposit with a fresh `(client, tx)` key to
a non-frozen or absent client succeeds, records `signed_amount = amount`, and
adds `amount` to the available balance (so a negative amount decreases it). -/
theorem deposit_no_sign_check (db : Db) (tx : TransactionId) (client : ClientId)
    (amount : Amount) (ht : db.history (client, tx) = none)
    (hf : ((db.clients client).getD ClientState.new).frozen = false) :
    (deposit db tx client amount).1 = Except.ok () ∧
    ((deposit db tx client amount).2).history (client, tx) =
      some ⟨amount, false⟩ ∧
    ((deposit db tx client amount).2).clients client =
      some ⟨((db.clients client).getD ClientState.new).available + amount,
            ((db.clients client).getD ClientState.new).held,
            ((db.clients client).getD ClientState.new).frozen⟩ := by
  rw [deposit_ok_eq db tx client amount ht hf]
  exact ⟨rfl, upd_apply_same _ _ _, by simp [upd_apply_same]⟩

/-- Witness for claim C10: depositing the negative amount -5 for a fresh
client succeeds and records `signed_amount = -5`. -/
theorem deposit_no_sign_check_wit :
    (deposit Db.new 1 1 (-5)).1 = Except.ok () ∧
    ((deposit Db.new 1 1 (-5)).2).history (1, 1) = some ⟨-5, false⟩ :=
  ⟨(deposit_no_sign_check Db.new 1 1 (-5) rfl rfl).1,
   (deposit_no_sign_check Db.new 1 1 (-5) rfl rfl).2.1⟩

theorem dbCb_history_fresh : dbCb.history (1, 2) = none := by
  show ((chargeback dbDisp 1 1).2).history (1, 2) = none
  rw [chargeback_ok_eq dbDisp 1 1 ⟨0, 10, false⟩ ⟨10, true⟩ dbDisp_clients
    dbDisp_history rfl]
  show ((dispute dbDep 1 1).2).history (1, 2) = none
  rw [dispute_ok_eq dbDep 1 1 ⟨10, 0, false⟩ ⟨10, false⟩ dbDep_clients
    dbDep_history rfl]
  show upd dbDep.history (1, 1) (some ⟨10, true⟩) (1, 2) = none
  rw [upd_apply_ne dbDep.history (1, 1) (1, 2) _ (by decide)]
  exact dbDep_history_fresh

/-- Claim C3 counterexample: in the concrete reachable store `dbCb` client 1 is
frozen, yet a deposit reusing the recorded transaction id 1 fails with
`DuplicateTransaction`, not `AccountFrozen` (the duplicate check runs before
the frozen check). -/
theorem frozen_not_always_accountfrozen_cex :
    dbCb.clients 1 = some ⟨0, 0, true⟩ ∧
    (deposit dbCb 1 1 5).1 =
      Except.error (TransactionError.DuplicateTransaction 1 1) ∧
    (deposit dbCb 1 1 5).1 ≠
      Except.error (TransactionError.AccountFrozen 1) := by
  have h := deposit_dup dbCb 1 1 5 ⟨10, true⟩ dbCb_history
  refine ⟨dbCb_clients, by rw [h], by rw [h]; simp⟩

theorem clients_frozen_preserved (db : Db) (e : TransactionEvent)
    (client : ClientId) (cl : ClientState) (hc : db.clients client = some cl)
    (hf : cl.frozen = true) :
    ∃ cl', ((process_transaction_event db e).2).clients client = some cl' ∧
      cl'.frozen = true := by
  cases e with
  | Deposit tx0 c0 a0 =>
    simp only [process_transaction_event]
    cases hht : db.history (c0, tx0) with
    | some t =>
      rw [deposit_dup db tx0 c0 a0 t hht]
      exact ⟨cl, hc, hf⟩
    | none =>
      cases hcl0 : db.clients c0 with
      | none =>
        rw [deposit_ok_eq db tx0 c0 a0 hht (by rw [hcl0]; rfl)]
        by_cases hec : client = c0
        · subst hec
          rw [hc] at hcl0
          exact absurd hcl0 (by simp)
        · exact ⟨cl, upd_lookup_ne hec hc, hf⟩
      | some cl0 =>
        cases hf0 : cl0.frozen with
        | true =>
          rw [deposit_frozen db tx0 c0 a0 cl0 hht hcl0 hf0]
          exact ⟨cl, hc, hf⟩
        | false =>
          rw [deposit_ok_eq db tx0 c0 a0 hht (by rw [hcl0]; simpa using hf0)]
          by_cases hec : client = c0
          · subst hec
            rw [hc] at hcl0
            injection hcl0 with h'
            rw [← h'] at hf0
            rw [hf] at hf0
            exact absurd hf0 (by simp)
          · exact ⟨cl, upd_lookup_ne hec hc, hf⟩
  | Withdrawal tx0 c0 a0 =>
    simp only [process_transaction_event]
    cases hht : db.history (c0, tx0) with
    | some t =>
      rw [withdrawal_dup db tx0 c0 a0 t hht]
      exact ⟨cl, hc, hf⟩
    | none =>
      cases hcl0 : db.clients c0 with
      | none =>
        rw [withdrawal_noclient db tx0 c0 a0 hht hcl0]
        exact ⟨cl, hc, hf⟩
      | some cl0 =>
        cases hf0 : cl0.frozen with
        | true =>
          rw [withdrawal_frozen db tx0 c0 a0 cl0 hht hcl0 hf0]
          exact ⟨cl, hc, hf⟩
        | false =>
          by_cases hlt : cl0.available < a0
          · rw [withdrawal_insufficient db tx0 c0 a0 cl0 hht hcl0 hf0 hlt]
            exact ⟨cl, hc, hf⟩
          · rw [withdrawal_ok_eq db tx0 c0 a0 cl0 hht hcl0 hf0 hlt]
            by_cases hec : client = c0
            · subst hec
              rw [hc] at hcl0
              injection hcl0 with h'
              rw [← h'] at hf0
              rw [hf] at hf0
              exact absurd hf0 (by simp)
            · exact ⟨cl, upd_lookup_ne hec hc, hf⟩
  | Dispute tx0 c0 =>
    simp only [process_transaction_event]
    cases hcl0 : db.clients c0 with
    | none =>
      rw [dispute_noclient db tx0 c0 hcl0]
      exact ⟨cl, hc, hf⟩
    | some cl0 =>
      cases hht : db.history (c0, tx0) with
      | none =>
        rw [dispute_notx db tx0 c0 cl0 hcl0 hht]
        exact ⟨cl, hc, hf⟩
      | some t =>
        cases hd : t.disputed with
        | true =>
          rw [dispute_already db tx0 c0 cl0 t hcl0 hht hd]
          exact ⟨cl, hc, hf⟩
        | false =>
          rw [dispute_ok_eq db tx0 c0 cl0 t hcl0 hht hd]
          by_cases hec : client = c0
          · subst hec
            rw [hc] at hcl0
            injection hcl0 with h'
            subst h'
            exact ⟨_, upd_apply_same _ _ _, hf⟩
          · exact ⟨cl, upd_lookup_ne hec hc, hf⟩
  | Resolve tx0 c0 =>
    simp only [process_transaction_event]
    cases hcl0 : db.clients c0 with
    | none =>
      rw [resolve_noclient db tx0 c0 hcl0]
      exact ⟨cl, hc, hf⟩
    | some cl0 =>
      cases hht : db.history (c0, tx0) with
      | none =>
        rw [resolve_notx db tx0 c0 cl0 hcl0 hht]
        exact ⟨cl, hc, hf⟩
      | some t =>
        cases hd : t.disputed with
        | false =>
          rw [resolve_undisputed db tx0 c0 cl0 t hcl0 hht hd]
          exact ⟨cl, hc, hf⟩
        | true =>
          rw [resolve_ok_eq db tx0 c0 cl0 t hcl0 hht hd]
          by_cases hec : client = c0
          · subst hec
            rw [hc] at hcl0
            injection hcl0 with h'
            subst h'
            exact ⟨_, upd_apply_same _ _ _, hf⟩
          · exact ⟨cl, upd_lookup_ne hec hc, hf⟩
  | Chargeback tx0 c0 =>
    simp only [process_transaction_event]
    cases hcl0 : db.clients c0 with
    | none =>
      rw [chargeback_noclient db tx0 c0 hcl0]
      exact ⟨cl, hc, hf⟩
    | some cl0 =>
      cases hht : db.history (c0, tx0) with
      | none =>
        rw [chargeback_notx db tx0 c0 cl0 hcl0 hht]
        exact ⟨cl, hc, hf⟩
      | some t =>
        cases hd : t.disputed with
        | false =>
          rw [chargeback_undisputed db tx0 c0 cl0 t hcl0 hht hd]
          exact ⟨cl, hc, hf⟩
        | true =>
          rw [chargeback_ok_eq db tx0 c0 cl0 t hcl0 hht hd]
          by_cases hec : client = c0
          · subst hec
            exact ⟨_, upd_apply_same _ _ _, rfl⟩
          · exact ⟨cl, upd_lookup_ne hec hc, hf⟩

/-- Claim C3 (amended): once a client's frozen flag is true it remains true
under every operation, and every subsequent deposit or withdrawal for that
client fails regardless of amount — with `AccountFrozen` when the transaction
id is fresh, and with `DuplicateTransaction` when the id is already
recorded. -/
theorem frozen_permanent (db : Db) (client : ClientId) (cl : ClientState)
    (hc : db.clients client = some cl) (hf : cl.frozen = true) :
    (∀ e, ∃ cl', ((process_transaction_event db e).2).clients client = some cl' ∧
      cl'.frozen = true) ∧
    (∀ tx amount, db.history (client, tx) = none →
      (deposit db tx client amount).1 =
        Except.error (TransactionError.AccountFrozen client) ∧
      (withdrawal db tx client amount).1 =
        Except.error (TransactionError.AccountFrozen client)) ∧
    (∀ tx amount t, db.history (client, tx) = some t →
      (deposit db tx client amount).1 =
        Except.error (TransactionError.DuplicateTransaction client tx) ∧
      (withdrawal db tx client amount).1 =
        Except.error (TransactionError.DuplicateTransaction client tx)) := by
  refine ⟨fun e => clients_frozen_preserved db e client cl hc hf, ?_, ?_⟩
  · intro tx amount ht
    rw [deposit_frozen db tx client amount cl ht hc hf,
      withdrawal_frozen db tx client amount cl ht hc hf]
    exact ⟨rfl, rfl⟩
  · intro tx amount t ht
    rw [deposit_dup db tx client amount t ht,
      withdrawal_dup db tx client amount t ht]
    exact ⟨rfl, rfl⟩

/-- Witness for claim C3 (amended): in the concrete frozen store `dbCb`, a
deposit and a withdrawal with the fresh transaction id 2 both fail with
`AccountFrozen`. -/
theorem frozen_permanent_wit :
    (deposit dbCb 2 1 7).1 = Except.error (TransactionError.AccountFrozen 1) ∧
    (withdrawal dbCb 2 1 7).1 =
      Except.error (TransactionError.AccountFrozen 1) :=
  (frozen_permanent dbCb 1 ⟨0, 0, true⟩ dbCb_clients rfl).2.1 2 7 dbCb_history_fresh

/-- Claim C2 counterexample: in the concrete reachable store `dbCb` the
transaction `(1, 1)` has been charged back (its disputed flag is still true),
yet a subsequent `resolve` succeeds, clears the disputed flag, and changes the
account's balances. -/
theorem chargeback_terminality_cex :
    dbCb.history (1, 1) = some ⟨10, true⟩ ∧
    (resolve dbCb 1 1).1 = Except.ok () ∧
    ((resolve dbCb 1 1).2).history (1, 1) = some ⟨10, false⟩ ∧
    ((resolve dbCb 1 1).2).clients 1 = some ⟨10, -10, true⟩ := by
  rw [resolve_ok_eq dbCb 1 1 ⟨0, 0, true⟩ ⟨10, true⟩ dbCb_clients dbCb_history rfl]
  refine ⟨dbCb_history, rfl, ?_, ?_⟩
  · show upd dbCb.history (1, 1) (some ⟨10, false⟩) (1, 1) = some ⟨10, false⟩
    exact upd_apply_same _ _ _
  · show upd dbCb.clients 1 (some ⟨0 + 10, 0 - 10, true⟩) 1 = some ⟨10, -10, true⟩
    rw [upd_apply_same]
    norm_num

/-- Claim C2 (amended): a successful chargeback on `(client, tx)` leaves the
transaction's history entry unchanged with `disputed = true`, so a subsequent
dispute fails with `AlreadyDisputed` and changes nothing — but the transaction
is not terminal: a subsequent resolve succeeds, clears the disputed flag and
moves the signed amount from held back to available, and a second chargeback
also succeeds and subtracts the signed amount from held again. -/
theorem chargeback_not_terminal (db : Db) (tx : TransactionId)
    (client : ClientId) (cl : ClientState) (t : TransactionState)
    (hc : db.clients client = some cl) (ht : db.history (client, tx) = some t)
    (hd : t.disputed = true) :
    (chargeback db tx client).1 = Except.ok () ∧
    ((chargeback db tx client).2).history (client, tx) = some t ∧
    dispute (chargeback db tx client).2 tx client =
      (Except.error (TransactionError.AlreadyDisputed client tx),
        (chargeback db tx client).2) ∧
    (resolve (chargeback db tx client).2 tx client).1 = Except.ok () ∧
    ((resolve (chargeback db tx client).2 tx client).2).history (client, tx) =
      some ⟨t.amount, false⟩ ∧
    ((resolve (chargeback db tx client).2 tx client).2).clients client =
      some ⟨cl.available + t.amount, cl.held - t.amount - t.amount, true⟩ ∧
    (chargeback (chargeback db tx client).2 tx client).1 = Except.ok () ∧
    ((chargeback (chargeback db tx client).2 tx client).2).clients client =
      some ⟨cl.available, cl.held - t.amount - t.amount, true⟩ := by
  rw [chargeback_ok_eq db tx client cl t hc ht hd]
  rw [dispute_already
    (⟨upd db.clients client (some ⟨cl.available, cl.held - t.amount, true⟩),
      db.history⟩ : Db) tx client ⟨cl.available, cl.held - t.amount, true⟩ t
    (upd_apply_same _ _ _) ht hd]
  rw [resolve_ok_eq
    (⟨upd db.clients client (some ⟨cl.available, cl.held - t.amount, true⟩),
      db.history⟩ : Db) tx client ⟨cl.available, cl.held - t.amount, true⟩ t
    (upd_apply_same _ _ _) ht hd]
  rw [chargeback_ok_eq
    (⟨upd db.clients client (some ⟨cl.available, cl.held - t.amount, true⟩),
      db.history⟩ : Db) tx client ⟨cl.available, cl.held - t.amount, true⟩ t
    (upd_apply_same _ _ _) ht hd]
  refine ⟨rfl, ht, rfl, rfl, upd_apply_same _ _ _, ?_, rfl, ?_⟩
  · show upd (upd db.clients client _) client
      (some ⟨cl.available + t.amount, cl.held - t.amount - t.amount, true⟩) client =
      some ⟨cl.available + t.amount, cl.held - t.amount - t.amount, true⟩
    exact upd_apply_same _ _ _
  · show upd (upd db.clients client _) client
      (some ⟨cl.available, cl.held - t.amount - t.amount, true⟩) client =
      some ⟨cl.available, cl.held - t.amount - t.amount, true⟩
    exact upd_apply_same _ _ _

/-- Witness for claim C2 (amended): on the concrete store `dbDisp` the
chargeback followed by a resolve on transaction `(1, 1)` both succeed. -/
theorem chargeback_not_terminal_wit :
    (resolve (chargeback dbDisp 1 1).2 1 1).1 = Except.ok () :=
  (chargeback_not_terminal dbDisp 1 1 ⟨0, 10, false⟩ ⟨10, true⟩ dbDisp_clients
    dbDisp_history rfl).2.2.2.1

theorem csv_processor_ok_of_decodes (rows : List TransactionRow) :
    ∀ db : Db, (∀ r ∈ rows, ∃ ev, TransactionEvent.try_from r = Except.ok ev) →
      ∃ dbf, csv_processor db rows = Except.ok dbf := by
  induction rows with
  | nil => exact fun db _ => ⟨db, rfl⟩
  | cons row rest ih =>
    intro db h
    obtain ⟨ev, hev⟩ := h row (List.mem_cons_self row rest)
    simp only [csv_processor, hev]
    exact ih (process_transaction_event db ev).2
      (fun r hr => h r (List.mem_cons_of_mem row hr))

theorem csv_processor_aborts_on_decode (pre : List TransactionRow)
    (row : TransactionRow) (rest : List TransactionRow) (e : CsvDecodeError) :
    ∀ db : Db, (∀ r ∈ pre, ∃ ev, TransactionEvent.try_from r = Except.ok ev) →
      TransactionEvent.try_from row = Except.error e →
      csv_processor db (pre ++ row :: rest) = Except.error e := by
  induction pre with
  | nil =>
    intro db _ hrow
    simp only [List.nil_append, csv_processor, hrow]
  | cons p ps ih =>
    intro db h hrow
    obtain ⟨ev, hev⟩ := h p (List.mem_cons_self p ps)
    simp only [List.cons_append, csv_processor, hev]
    exact ih (process_transaction_event db ev).2
      (fun r hr => h r (List.mem_cons_of_mem p hr)) hrow

/-- Claim C9: when processing an event sequence, a decode failure (missing
amount for deposit/withdrawal, or unrecognized event type) aborts the entire
run with that decode error before any snapshot is emitted, whereas ledger
errors are only logged: processing continues and the final store (from which
the snapshot is emitted) is produced no matter how many ledger errors
occurred. -/
theorem csv_processor_control_flow (db : Db) (rows : List TransactionRow) :
    ((∀ r ∈ rows, ∃ ev, TransactionEvent.try_from r = Except.ok ev) →
      ∃ dbf, csv_processor db rows = Except.ok dbf) ∧
    (∀ pre row rest e, rows = pre ++ row :: rest →
      (∀ r ∈ pre, ∃ ev, TransactionEvent.try_from r = Except.ok ev) →
      TransactionEvent.try_from row = Except.error e →
      csv_processor db rows = Except.error e) := by
  refine ⟨csv_processor_ok_of_decodes rows db, ?_⟩
  intro pre row rest e hrows hpre hrow
  subst hrows
  exact csv_processor_aborts_on_decode pre row rest e db hpre hrow

/-- Witness for claim C9: a run whose second event triggers a ledger error
(insufficient funds) still produces a final store, while a run containing an
unknown event type aborts with the decode error. -/
theorem csv_processor_control_flow_wit :
    (∃ dbf, csv_processor Db.new
      [⟨"deposit", 1, 1, some 10⟩, ⟨"withdrawal", 1, 2, some 99⟩] =
        Except.ok dbf) ∧
    csv_processor Db.new
      [⟨"deposit", 1, 1, some 10⟩, ⟨"bogus", 1, 2, none⟩] =
        Except.error (CsvDecodeError.UnknownType "bogus") := by
  constructor
  · refine (csv_processor_control_flow Db.new
      [⟨"deposit", 1, 1, some 10⟩, ⟨"withdrawal", 1, 2, some 99⟩]).1 ?_
    intro r hr
    simp only [List.mem_cons, List.not_mem_nil, or_false] at hr
    rcases hr with rfl | rfl
    · exact ⟨_, rfl⟩
    · exact ⟨_, rfl⟩
  · exact (csv_processor_control_flow Db.new
      [⟨"deposit", 1, 1, some 10⟩, ⟨"bogus", 1, 2, none⟩]).2
      [⟨"deposit", 1, 1, some 10⟩] ⟨"bogus", 1, 2, none⟩ [] _ rfl
      (fun r hr => by
        simp only [List.mem_singleton] at hr
        subst hr
        exact ⟨_, rfl⟩) rfl

/-- Store invariant: every recorded transaction belongs to an existing client.
It holds in the empty store and is preserved by every operation (see below),
so hypotheses of the form `db.clients client = some cl` in the theorems above
are satisfied in every reachable store whenever `(client, tx)` is recorded. -/
def clientsComplete (db : Db) : Prop :=
  ∀ p : ClientId × TransactionId, (db.history p).isSome → (db.clients p.1).isSome

theorem clientsComplete_new : clientsComplete Db.new := by
  intro p hp
  simp [Db.new] at hp

theorem clientsComplete_upd (db : Db) (client : ClientId) (tx : TransactionId)
    (cl' : ClientState) (t' : TransactionState) (h : clientsComplete db) :
    clientsComplete
      ⟨upd db.clients client (some cl'),
       upd db.history (client, tx) (some t')⟩ := by
  intro p hp
  by_cases hpc : p.1 = client
  · simp [upd, hpc]
  · have hne : p ≠ (client, tx) := fun hh => hpc (by rw [hh])
    rw [show (⟨upd db.clients client (some cl'),
        upd db.history (client, tx) (some t')⟩ : Db).history p =
      upd db.history (client, tx) (some t') p from rfl,
      upd_apply_ne _ _ _ _ hne] at hp
    have := h p hp
    simpa [upd, hpc] using this

theorem clientsComplete_upd_clients (db : Db) (client : ClientId)
    (cl' : ClientState) (h : clientsComplete db) :
    clientsComplete ⟨upd db.clients client (some cl'), db.history⟩ := by
  intro p hp
  by_cases hpc : p.1 = client
  · simp [upd, hpc]
  · have := h p hp
    simpa [upd, hpc] using this

theorem clientsComplete_preserved (db : Db) (e : TransactionEvent)
    (h : clientsComplete db) :
    clientsComplete (process_transaction_event db e).2 := by
  cases e with
  | Deposit tx client amount =>
    simp only [process_transaction_event]
    cases hht : db.history (client, tx) with
    | some t => rw [deposit_dup db tx client amount t hht]; exact h
    | none =>
      cases hcc : db.clients client with
      | none =>
        rw [deposit_ok_eq db tx client amount hht (by rw [hcc]; rfl)]
        exact clientsComplete_upd db client tx _ _ h
      | some cl =>
        cases hf : cl.frozen with
        | true => rw [deposit_frozen db tx client amount cl hht hcc hf]; exact h
        | false =>
          rw [deposit_ok_eq db tx client amount hht (by rw [hcc]; simpa using hf)]
          exact clientsComplete_upd db client tx _ _ h
  | Withdrawal tx client amount =>
    simp only [process_transaction_event]
    cases hht : db.history (client, tx) with
    | some t => rw [withdrawal_dup db tx client amount t hht]; exact h
    | none =>
      cases hcc : db.clients client with
      | none => rw [withdrawal_noclient db tx client amount hht hcc]; exact h
      | some cl =>
        cases hf : cl.frozen with
        | true => rw [withdrawal_frozen db tx client amount cl hht hcc hf]; exact h
        | false =>
          by_cases hlt : cl.available < amount
          · rw [withdrawal_insufficient db tx client amount cl hht hcc hf hlt]
            exact h
          · rw [withdrawal_ok_eq db tx client amount cl hht hcc hf hlt]
            exact clientsComplete_upd db client tx _ _ h
  | Dispute tx client =>
    simp only [process_transaction_event]
    cases hcc : db.clients client with
    | none => rw [dispute_noclient db tx client hcc]; exact h
    | some cl =>
      cases hht : db.history (client, tx) with
      | none => rw [dispute_notx db tx client cl hcc hht]; exact h
      | some t =>
        cases hd : t.disputed with
        | true => rw [dispute_already db tx client cl t hcc hht hd]; exact h
        | false =>
          rw [dispute_ok_eq db tx client cl t hcc hht hd]
          exact clientsComplete_upd db client tx _ _ h
  | Resolve tx client =>
    simp only [process_transaction_event]
    cases hcc : db.clients client with
    | none => rw [resolve_noclient db tx client hcc]; exact h
    | some cl =>
      cases hht : db.history (client, tx) with
      | none => rw [resolve_notx db tx client cl hcc hht]; exact h
      | some t =>
        cases hd : t.disputed with
        | false => rw [resolve_undisputed db tx client cl t hcc hht hd]; exact h
        | true =>
          rw [resolve_ok_eq db tx client cl t hcc hht hd]
          exact clientsComplete_upd db client tx _ _ h
  | Chargeback tx client =>
    simp only [process_transaction_event]
    cases hcc : db.clients client with
    | none => rw [chargeback_noclient db tx client hcc]; exact h
    | some cl =>
      cases hht : db.history (client, tx) with
      | none => rw [chargeback_notx db tx client cl hcc hht]; exact h
      | some t =>
        cases hd : t.disputed with
        | false => rw [chargeback_undisputed db tx client cl t hcc hht hd]; exact h
        | true =>
          rw [chargeback_ok_eq db tx client cl t hcc hht hd]
          exact clientsComplete_upd_clients db client _ h
